import Mathlib

/-!
Shallow embedding of the fetch-and-filter pipeline of src/main.py
(class FilterParams and class CryptoAnalyzer), together with proofs of
the testable properties stated in the design document.

Modelling conventions: numeric provider fields (Python floats) are
modelled as rationals; a JSON field whose key is absent is modelled as
Option.none; Python list slicing (including negative bounds) is modelled
explicitly; an uncaught exception is modelled as Except.error.
-/

set_option maxRecDepth 4000

namespace CryptoScan

/-- Caller-supplied filter criteria (class FilterParams, src/main.py
lines 17-22), with the pydantic field defaults. The pydantic model puts
no bound on max_results, so it is an arbitrary integer. -/
structure FilterParams where
  min_ath_market_cap : ℚ := 500000
  max_drawdown : ℚ := 50
  min_drawdown : ℚ := 90
  min_current_market_cap : ℚ := 20000
  max_results : ℤ := 100
deriving DecidableEq

/-- A raw provider record (the market-snapshot dict of the upstream API).
Every field is optional: none models an absent key. -/
structure RawSnapshot where
  id : Option String := none
  name : Option String := none
  symbol : Option String := none
  current_price : Option ℚ := none
  market_cap : Option ℚ := none
  ath : Option ℚ := none
  ath_date : Option String := none
  ath_change_percentage : Option ℚ := none
  market_cap_rank : Option ℚ := none
  price_change_24h : Option ℚ := none
  price_change_percentage_24h : Option ℚ := none
  image : Option String := none
  last_updated : Option String := none
deriving DecidableEq

/-- A Python value that is either a string or a number. Needed for the
rank column of the output dict, which holds a number when
market_cap_rank is present and the string N/A when it is absent
(src/main.py line 162). -/
inductive PyVal where
  | str (s : String)
  | num (q : ℚ)
deriving DecidableEq

/-- The crypto_info dict built for an accepted record
(src/main.py lines 151-168). -/
structure CryptoInfo where
  name : String
  symbol : String
  current_price : ℚ
  ath_price : ℚ
  current_market_cap : ℚ
  ath_date : String
  estimated_ath_market_cap : ℚ
  drawdown_percent : ℚ
  drawdown_positive : ℚ
  price_deviation : ℚ
  rank : PyVal
  id : String
  price_change_24h : ℚ
  price_change_percentage_24h : ℚ
  image : String
  last_updated : String
deriving DecidableEq

/-- One element of the crypto_data list handed to filter_cryptocurrencies:
either a well-shaped record, or a value that is falsy or whose processing
raises one of the caught exceptions (KeyError, TypeError,
ZeroDivisionError, AttributeError). Both kinds of bad element reach a
continue statement (src/main.py lines 116-117 and 171-172), contributing
nothing to the output. -/
inductive Record where
  | malformed
  | ok (c : RawSnapshot)
deriving DecidableEq

/-- calculate_deviation (src/main.py lines 77-81): returns 0 when the
all-time high is zero or either argument is None, otherwise the signed
percentage deviation of the current price from the all-time high. -/
def calculate_deviation (current_price ath_price : Option ℚ) : ℚ :=
  match current_price, ath_price with
  | some cp, some ap => if ap = 0 then 0 else (cp - ap) / ap * 100
  | _, _ => 0

/-- Round a rational to the nearest integer with ties going to the even
neighbour, the rounding Python's builtin round performs. -/
def roundHalfEven (q : ℚ) : ℤ :=
  if q - ⌊q⌋ < 1 / 2 then ⌊q⌋
  else if 1 / 2 < q - ⌊q⌋ then ⌊q⌋ + 1
  else if ⌊q⌋ % 2 = 0 then ⌊q⌋ else ⌊q⌋ + 1

/-- Python round(x, 2): round to two decimal places. -/
def round2 (q : ℚ) : ℚ := (roundHalfEven (q * 100) : ℚ) / 100

/-- crypto.get of the current price with numeric default 0
(src/main.py line 119). -/
def current_price_of (c : RawSnapshot) : ℚ := c.current_price.getD 0

/-- crypto.get of the market cap with numeric default 0
(src/main.py line 120). -/
def market_cap_of (c : RawSnapshot) : ℚ := c.market_cap.getD 0

/-- crypto.get of the all-time high with numeric default 0
(src/main.py line 121). -/
def ath_of (c : RawSnapshot) : ℚ := c.ath.getD 0

/-- The skip condition of src/main.py line 124: not current_price or
not ath_price or current_price <= 0 or ath_price <= 0, where Python
falsiness of a number is equality with zero. -/
def price_skip (c : RawSnapshot) : Prop :=
  current_price_of c = 0 ∨ ath_of c = 0 ∨ current_price_of c ≤ 0 ∨ ath_of c ≤ 0

instance (c : RawSnapshot) : Decidable (price_skip c) :=
  inferInstanceAs (Decidable
    (current_price_of c = 0 ∨ ath_of c = 0 ∨ current_price_of c ≤ 0 ∨ ath_of c ≤ 0))

/-- The drawdown percentage (src/main.py lines 128-132): the
provider-supplied ath_change_percentage when present, otherwise the
freshly computed deviation. -/
def drawdown_percentage_of (c : RawSnapshot) : ℚ :=
  match c.ath_change_percentage with
  | some v => v
  | none => calculate_deviation (some (current_price_of c)) (some (ath_of c))

/-- The estimated all-time-high market capitalisation
(src/main.py line 135). -/
def estimated_ath_market_cap_of (c : RawSnapshot) : ℚ :=
  ath_of c / current_price_of c * market_cap_of c

/-- The always-freshly-computed price deviation (src/main.py line 141). -/
def price_deviation_of (c : RawSnapshot) : ℚ :=
  calculate_deviation (some (current_price_of c)) (some (ath_of c))

/-- The acceptance conjunction conditions_met (src/main.py lines 144-148);
the chained Python comparison is the conjunction of its two inequalities,
and drawdown_positive is the absolute value of the drawdown percentage
(line 138). -/
def conditions_met (fp : FilterParams) (c : RawSnapshot) : Prop :=
  estimated_ath_market_cap_of c ≥ fp.min_ath_market_cap ∧
  market_cap_of c ≥ fp.min_current_market_cap ∧
  fp.min_drawdown ≤ |drawdown_percentage_of c| ∧
  |drawdown_percentage_of c| ≤ fp.max_drawdown

instance (fp : FilterParams) (c : RawSnapshot) : Decidable (conditions_met fp c) :=
  inferInstanceAs (Decidable
    (estimated_ath_market_cap_of c ≥ fp.min_ath_market_cap ∧
     market_cap_of c ≥ fp.min_current_market_cap ∧
     fp.min_drawdown ≤ |drawdown_percentage_of c| ∧
     |drawdown_percentage_of c| ≤ fp.max_drawdown))

/-- The crypto_info dict construction for an accepted record
(src/main.py lines 151-168). -/
def project (c : RawSnapshot) : CryptoInfo :=
  { name := c.name.getD "N/A"
    symbol := (c.symbol.getD "N/A").toUpper
    current_price := current_price_of c
    ath_price := ath_of c
    current_market_cap := market_cap_of c
    ath_date := c.ath_date.getD "N/A"
    estimated_ath_market_cap := estimated_ath_market_cap_of c
    drawdown_percent := round2 (drawdown_percentage_of c)
    drawdown_positive := round2 |drawdown_percentage_of c|
    price_deviation := round2 (price_deviation_of c)
    rank := match c.market_cap_rank with
            | some n => PyVal.num n
            | none => PyVal.str "N/A"
    id := c.id.getD ""
    price_change_24h := c.price_change_24h.getD 0
    price_change_percentage_24h := c.price_change_percentage_24h.getD 0
    image := c.image.getD ""
    last_updated := c.last_updated.getD "" }

/-- The body of the per-record loop of filter_cryptocurrencies
(src/main.py lines 114-172), as a function from one list element to the
optional entry it appends. -/
def processRecord (fp : FilterParams) : Record → Option CryptoInfo
  | Record.malformed => none
  | Record.ok c =>
    if price_skip c then none
    else if conditions_met fp c then some (project c)
    else none

/-- The filtered list accumulated by the loop, before the final slice
(src/main.py lines 112-172). -/
def acceptedEntries (fp : FilterParams) (crypto_data : List Record) : List CryptoInfo :=
  crypto_data.filterMap (processRecord fp)

/-- Python list slicing l[:n], including the negative-n semantics of
counting from the end. -/
def pySlice {α : Type} (n : ℤ) (l : List α) : List α :=
  if 0 ≤ n then l.take n.toNat else l.take (l.length - (-n).toNat)

/-- filter_cryptocurrencies (src/main.py lines 110-174): run the
per-record loop, then return filtered[:max_results]. -/
def filter_cryptocurrencies (crypto_data : List Record) (filter_params : FilterParams) :
    List CryptoInfo :=
  pySlice filter_params.max_results (acceptedEntries filter_params crypto_data)

/-- The deduplication loop of get_all_cryptos (src/main.py lines 100-108).
The id subscript raises an uncaught KeyError when the key is absent,
modelled as Except.error. seen_ids is modelled as the list of identifiers
added so far, used only through membership. -/
def dedupGo (seen : List String) (acc : List RawSnapshot) :
    List RawSnapshot → Except Unit (List RawSnapshot)
  | [] => Except.ok acc.reverse
  | c :: rest =>
    match c.id with
    | none => Except.error ()
    | some i =>
      if i ∈ seen then dedupGo seen acc rest
      else dedupGo (i :: seen) (c :: acc) rest

/-- The deduplication pass of get_all_cryptos over the concatenated page
contents (src/main.py lines 100-108). -/
def dedup_by_id (l : List RawSnapshot) : Except Unit (List RawSnapshot) :=
  dedupGo [] [] l

/-- get_all_cryptos (src/main.py lines 83-108): page contents are
concatenated in page order by all_cryptos.extend (a page that failed or
returned no data contributes the empty list) and the concatenation is
deduplicated by identifier. -/
def get_all_cryptos (pages : List (List RawSnapshot)) : Except Unit (List RawSnapshot) :=
  dedup_by_id (pages.foldl (fun acc page => acc ++ page) [])

/-- The deduplication policy exactly as the specification words it
(spec sections 4.1 and 8): the first occurrence of each identifier in
page order is kept, later records carrying an already-seen identifier are
discarded. -/
def specFirstOccurrence : List RawSnapshot → List RawSnapshot
  | [] => []
  | c :: rest => c :: (specFirstOccurrence rest).filter (fun r => r.id ≠ c.id)

/-- Boolean predicate relating the seen_ids set of the code with the
specification-side description: a record passes when its identifier has
not been seen yet. -/
def notSeen (seen : List String) (r : RawSnapshot) : Bool :=
  match r.id with
  | some i => decide (i ∉ seen)
  | none => true

/-! ### Concrete records and criteria used by the examples -/

/-- The record of the worked example in spec section 8: current price 10,
all-time high 100, market cap 1000000, no provider-supplied change
percentage. -/
def c1rec : RawSnapshot :=
  { current_price := some 10, ath := some 100, market_cap := some 1000000 }

/-- The criteria of the worked example in spec section 8. -/
def c1fp : FilterParams :=
  { min_ath_market_cap := 500000, max_drawdown := 90, min_drawdown := 90,
    min_current_market_cap := 20000, max_results := 100 }

/-- Record with identifier a, used in the paging example. -/
def r_a : RawSnapshot := { id := some "a" }

/-- Record with identifier b, first occurrence. -/
def r_b : RawSnapshot := { id := some "b" }

/-- A different record that repeats identifier b on the second page. -/
def r_b2 : RawSnapshot := { id := some "b", name := some "duplicate" }

/-- Record with identifier c. -/
def r_c : RawSnapshot := { id := some "c" }

/-- A record with no identifier key at all. -/
def c3noid : RawSnapshot := { name := some "nameless" }

/-- A well-identified record before the bad one. -/
def c3a : RawSnapshot := { id := some "x" }

/-- A well-identified record after the bad one. -/
def c3b : RawSnapshot := { id := some "y" }

/-- A record whose estimated peak capitalisation 10 / 3 * 100 is not
representable in two decimal places, and which is missing the id, image,
last_updated and market_cap_rank keys. -/
def c4rec : RawSnapshot :=
  { symbol := some "ab", current_price := some 3, market_cap := some 100, ath := some 10 }

/-- Permissive criteria that accept c4rec. -/
def c4fp : FilterParams :=
  { min_ath_market_cap := 0, max_drawdown := 100, min_drawdown := 0,
    min_current_market_cap := 0, max_results := 10 }

/-- The entry the code builds for c4rec: the estimated peak
capitalisation is stored unrounded, missing text keys id, image and
last_updated default to the empty string, and the missing numeric
market_cap_rank defaults to the string N/A. -/
def c4entry : CryptoInfo :=
  { name := "N/A", symbol := "AB", current_price := 3, ath_price := 10,
    current_market_cap := 100, ath_date := "N/A",
    estimated_ath_market_cap := 1000 / 3, drawdown_percent := -70,
    drawdown_positive := 70, price_deviation := -70,
    rank := PyVal.str "N/A", id := "", price_change_24h := 0,
    price_change_percentage_24h := 0, image := "", last_updated := "" }

/-- A record accepted by the permissive criteria below, drawdown 50. -/
def c5a : RawSnapshot := { current_price := some 1, ath := some 2, market_cap := some 5 }

/-- A second accepted record, drawdown 75. -/
def c5b : RawSnapshot := { current_price := some 1, ath := some 4, market_cap := some 7 }

/-- Permissive criteria with the pathological negative max_results. -/
def c5fp : FilterParams :=
  { min_ath_market_cap := 0, max_drawdown := 1000, min_drawdown := 0,
    min_current_market_cap := 0, max_results := -1 }

/-- The same permissive criteria with a nonnegative max_results. -/
def c5fpw : FilterParams :=
  { min_ath_market_cap := 0, max_drawdown := 1000, min_drawdown := 0,
    min_current_market_cap := 0, max_results := 1 }

/-- A record with drawdown magnitude 50. -/
def c6rec : RawSnapshot := { current_price := some 1, ath := some 2, market_cap := some 5 }

/-- Loose criteria: drawdown range 0 to 100. -/
def c6loose : FilterParams :=
  { min_ath_market_cap := 0, max_drawdown := 100, min_drawdown := 0,
    min_current_market_cap := 0, max_results := 10 }

/-- Tighter criteria: drawdown range 60 to 80, other fields unchanged. -/
def c6tight : FilterParams :=
  { min_ath_market_cap := 0, max_drawdown := 80, min_drawdown := 60,
    min_current_market_cap := 0, max_results := 10 }

/-- Criteria with an inverted drawdown range: minimum 90 above maximum 50. -/
def c7fp : FilterParams :=
  { min_ath_market_cap := 500000, max_drawdown := 50, min_drawdown := 90,
    min_current_market_cap := 20000, max_results := 100 }

/-- A record that would pass any reasonable thresholds. -/
def c7rec : RawSnapshot :=
  { current_price := some 10, ath := some 100, market_cap := some 1000000 }

/-- The section 8 example record with current price 0. -/
def c9rec : RawSnapshot :=
  { current_price := some 0, ath := some 100, market_cap := some 1000000 }

/-- Criteria used with the current-price-0 example. -/
def c9fp : FilterParams :=
  { min_ath_market_cap := 500000, max_drawdown := 90, min_drawdown := 90,
    min_current_market_cap := 20000, max_results := 100 }

/-- A FilterParams value built entirely from the pydantic defaults. -/
def defaultParams : FilterParams := {}

/-! ### Evaluation helpers -/

lemma roundHalfEven_intCast (z : ℤ) : roundHalfEven ((z : ℚ)) = z := by
  unfold roundHalfEven
  rw [Int.floor_intCast, sub_self]
  norm_num

lemma roundHalfEven_eq_down (q : ℚ) (z : ℤ) (h1 : (z : ℚ) ≤ q) (h2 : q < (z : ℚ) + 1)
    (h3 : q - (z : ℚ) < 1 / 2) : roundHalfEven q = z := by
  have hfl : ⌊q⌋ = z := Int.floor_eq_iff.mpr ⟨h1, h2⟩
  unfold roundHalfEven
  rw [hfl, if_pos h3]

lemma round2_of_mul_intCast (q : ℚ) (z : ℤ) (h : q * 100 = (z : ℚ)) :
    round2 q = (z : ℚ) / 100 := by
  rw [round2, h, roundHalfEven_intCast]

lemma abs_neg_ofNonneg (q : ℚ) (h : 0 ≤ q) : |(-q)| = q := by
  rw [abs_neg, abs_of_nonneg h]

lemma processRecord_skip (fp : FilterParams) (c : RawSnapshot) (h : price_skip c) :
    processRecord fp (Record.ok c) = none := by
  simp [processRecord, h]

lemma processRecord_reject (fp : FilterParams) (c : RawSnapshot) (h : ¬ conditions_met fp c) :
    processRecord fp (Record.ok c) = none := by
  simp [processRecord, h]

lemma processRecord_accept (fp : FilterParams) (c : RawSnapshot)
    (h1 : ¬ price_skip c) (h2 : conditions_met fp c) :
    processRecord fp (Record.ok c) = some (project c) := by
  simp [processRecord, h1, h2]

lemma processRecord_accept_eval (fp : FilterParams) (c : RawSnapshot) (d : ℚ)
    (hskip : ¬ price_skip c)
    (hdd : drawdown_percentage_of c = -d) (hd0 : 0 ≤ d)
    (hest : estimated_ath_market_cap_of c ≥ fp.min_ath_market_cap)
    (hmc : market_cap_of c ≥ fp.min_current_market_cap)
    (h3 : fp.min_drawdown ≤ d) (h4 : d ≤ fp.max_drawdown) :
    processRecord fp (Record.ok c) = some (project c) := by
  apply processRecord_accept fp c hskip
  refine ⟨hest, hmc, ?_, ?_⟩
  · rw [hdd, abs_neg_ofNonneg d hd0]; exact h3
  · rw [hdd, abs_neg_ofNonneg d hd0]; exact h4

lemma filter_singleton_of_process (fp : FilterParams) (c : RawSnapshot) (e : CryptoInfo)
    (h : processRecord fp (Record.ok c) = some e) (h3 : 1 ≤ fp.max_results) :
    filter_cryptocurrencies [Record.ok c] fp = [e] := by
  unfold filter_cryptocurrencies acceptedEntries pySlice
  rw [List.filterMap_cons, h, List.filterMap_nil, if_pos (le_trans zero_le_one h3)]
  have ht : 1 ≤ fp.max_results.toNat := by omega
  exact List.take_of_length_le (by simpa using ht)

lemma filter_singleton_accept (fp : FilterParams) (c : RawSnapshot)
    (h1 : ¬ price_skip c) (h2 : conditions_met fp c) (h3 : 1 ≤ fp.max_results) :
    filter_cryptocurrencies [Record.ok c] fp = [project c] :=
  filter_singleton_of_process fp c (project c) (processRecord_accept fp c h1 h2) h3

lemma acceptedEntries_nil (fp : FilterParams) :
    ∀ xs : List Record, (∀ r ∈ xs, processRecord fp r = none) → acceptedEntries fp xs = []
  | [], _ => rfl
  | a :: l, h => by
    have ha : processRecord fp a = none := h a (List.mem_cons_self a l)
    have hl : acceptedEntries fp l = [] :=
      acceptedEntries_nil fp l (fun r hr => h r (List.mem_cons_of_mem a hr))
    simp only [acceptedEntries, List.filterMap_cons, ha]
    exact hl

lemma pySlice_nil {α : Type} (n : ℤ) : pySlice n ([] : List α) = [] := by
  unfold pySlice
  split_ifs <;> simp

lemma acceptedEntries_middle_none (fp : FilterParams) (xs ys : List Record) (r : Record)
    (h : processRecord fp r = none) :
    acceptedEntries fp (xs ++ r :: ys) = acceptedEntries fp (xs ++ ys) := by
  unfold acceptedEntries
  rw [List.filterMap_append, List.filterMap_append]
  congr 1
  simp only [List.filterMap_cons, h]

lemma processRecord_none_of_inverted (fp : FilterParams)
    (h : fp.max_drawdown < fp.min_drawdown) (r : Record) :
    processRecord fp r = none := by
  cases r with
  | malformed => rfl
  | ok c =>
    by_cases hs : price_skip c
    · exact processRecord_skip fp c hs
    · apply processRecord_reject
      rintro ⟨_, _, d, e⟩
      exact absurd (le_trans d e) (not_le.mpr h)

lemma conditions_met_mono (fp₁ fp₂ : FilterParams) (c : RawSnapshot)
    (h₁ : fp₁.min_ath_market_cap = fp₂.min_ath_market_cap)
    (h₂ : fp₁.min_current_market_cap = fp₂.min_current_market_cap)
    (h₄ : fp₂.min_drawdown ≤ fp₁.min_drawdown)
    (h₅ : fp₁.max_drawdown ≤ fp₂.max_drawdown)
    (h : conditions_met fp₁ c) : conditions_met fp₂ c := by
  obtain ⟨a, b, d, e⟩ := h
  exact ⟨h₁ ▸ a, h₂ ▸ b, le_trans h₄ d, le_trans e h₅⟩

lemma processRecord_mono (fp₁ fp₂ : FilterParams)
    (h₁ : fp₁.min_ath_market_cap = fp₂.min_ath_market_cap)
    (h₂ : fp₁.min_current_market_cap = fp₂.min_current_market_cap)
    (h₄ : fp₂.min_drawdown ≤ fp₁.min_drawdown)
    (h₅ : fp₁.max_drawdown ≤ fp₂.max_drawdown)
    (r : Record) (e : CryptoInfo) (h : processRecord fp₁ r = some e) :
    processRecord fp₂ r = some e := by
  cases r with
  | malformed => simp [processRecord] at h
  | ok c =>
    by_cases hs : price_skip c
    · rw [processRecord_skip fp₁ c hs] at h
      exact absurd h (by simp)
    · by_cases hc : conditions_met fp₁ c
      · rw [processRecord_accept fp₁ c hs hc] at h
        rw [processRecord_accept fp₂ c hs (conditions_met_mono fp₁ fp₂ c h₁ h₂ h₄ h₅ hc)]
        exact h
      · rw [processRecord_reject fp₁ c hc] at h
        exact absurd h (by simp)

lemma filterMap_sublist {α β : Type} (f g : α → Option β)
    (hfg : ∀ a b, f a = some b → g a = some b) :
    ∀ l : List α, List.Sublist (l.filterMap f) (l.filterMap g)
  | [] => by simp
  | a :: l => by
    cases hf : f a with
    | none =>
      cases hg : g a with
      | none =>
        simp only [List.filterMap_cons, hf, hg]
        exact filterMap_sublist f g hfg l
      | some b =>
        simp only [List.filterMap_cons, hf, hg]
        exact (filterMap_sublist f g hfg l).cons b
    | some b =>
      simp only [List.filterMap_cons, hf, hfg a b hf]
      exact (filterMap_sublist f g hfg l).cons₂ b

lemma pySlice_length_mono {α : Type} (n : ℤ) (l₁ l₂ : List α) (h : l₁.length ≤ l₂.length) :
    (pySlice n l₁).length ≤ (pySlice n l₂).length := by
  unfold pySlice
  split_ifs with hn
  · rw [List.length_take, List.length_take]
    omega
  · rw [List.length_take, List.length_take]
    omega

/-! ### Deduplication lemmas -/

lemma notSeen_nil (r : RawSnapshot) : notSeen [] r = true := by
  unfold notSeen
  cases r.id <;> simp

lemma notSeen_cons_of_mem {i : String} {seen : List String} (hi : i ∈ seen) (r : RawSnapshot) :
    notSeen (i :: seen) r = notSeen seen r := by
  cases hid : r.id with
  | none => simp [notSeen, hid]
  | some j =>
    simp only [notSeen, hid, decide_eq_decide, List.mem_cons, not_or]
    constructor
    · rintro ⟨_, h2⟩; exact h2
    · intro hj; exact ⟨fun he => hj (he ▸ hi), hj⟩

lemma filter_fuse (i : String) (seen : List String) (l : List RawSnapshot) :
    (l.filter (fun r => r.id ≠ some i)).filter (notSeen seen) =
      l.filter (notSeen (i :: seen)) := by
  rw [List.filter_filter]
  apply List.filter_congr
  intro r _
  cases hid : r.id with
  | none => simp [notSeen, hid]
  | some j =>
    by_cases hj1 : j = i <;> by_cases hj2 : j ∈ seen <;>
      simp [notSeen, hid, hj1, hj2, List.mem_cons]

lemma dedupGo_eq_spec (l : List RawSnapshot) :
    ∀ (seen : List String) (acc : List RawSnapshot),
      (∀ r ∈ l, (r.id).isSome) →
      dedupGo seen acc l =
        Except.ok (acc.reverse ++ (specFirstOccurrence l).filter (notSeen seen)) := by
  induction l with
  | nil =>
    intro seen acc _
    simp [dedupGo, specFirstOccurrence]
  | cons c l ih =>
    intro seen acc h
    have hl : ∀ r ∈ l, (r.id).isSome := fun r hr => h r (List.mem_cons_of_mem c hr)
    cases hid : c.id with
    | none =>
      exfalso
      have hc := h c (List.mem_cons_self c l)
      rw [hid] at hc
      simp at hc
    | some i =>
      by_cases hi : i ∈ seen
      · rw [show dedupGo seen acc (c :: l) = dedupGo seen acc l from by
          simp [dedupGo, hid, hi]]
        rw [ih seen acc hl]
        have hcf : notSeen seen c = false := by simp [notSeen, hid, hi]
        rw [show specFirstOccurrence (c :: l) =
            c :: (specFirstOccurrence l).filter (fun r => r.id ≠ c.id) from rfl]
        simp only [hid]
        rw [List.filter_cons, hcf]
        simp only [Bool.false_eq_true, if_false]
        rw [filter_fuse i seen (specFirstOccurrence l)]
        rw [List.filter_congr (fun r _ => notSeen_cons_of_mem hi r)]
      · rw [show dedupGo seen acc (c :: l) = dedupGo (i :: seen) (c :: acc) l from by
          simp [dedupGo, hid, hi]]
        rw [ih (i :: seen) (c :: acc) hl]
        have hct : notSeen seen c = true := by simp [notSeen, hid, hi]
        rw [show specFirstOccurrence (c :: l) =
            c :: (specFirstOccurrence l).filter (fun r => r.id ≠ c.id) from rfl]
        simp only [hid]
        rw [List.filter_cons, hct]
        simp only [if_true]
        rw [filter_fuse i seen (specFirstOccurrence l)]
        rw [List.reverse_cons, List.append_assoc]
        rfl

/-! ### The claims -/

/-- Claim C1: a record with current price 10, all-time-high 100 and
market cap 1000000, without a provider-supplied change percentage, gets
drawdown percentage -90, drawdown magnitude 90 and estimated peak
capitalisation 10000000, and is accepted (appears in the output) under
criteria min_ath_market_cap 500000, min_drawdown 90, max_drawdown 90,
min_current_market_cap 20000. -/
theorem C1_example_record_accepted :
    (filter_cryptocurrencies [Record.ok c1rec] c1fp).map
      (fun e => (e.drawdown_percent, e.drawdown_positive, e.estimated_ath_market_cap)) =
    [(-90, 90, 10000000)] := by
  have hskip : ¬ price_skip c1rec := by
    norm_num [price_skip, current_price_of, ath_of, c1rec]
  have hdp : drawdown_percentage_of c1rec = -90 := by
    norm_num [drawdown_percentage_of, calculate_deviation, current_price_of, ath_of, c1rec]
  have hest : estimated_ath_market_cap_of c1rec = 10000000 := by
    norm_num [estimated_ath_market_cap_of, current_price_of, ath_of, market_cap_of, c1rec]
  have hcond : conditions_met c1fp c1rec := by
    refine ⟨?_, ?_, ?_, ?_⟩
    · rw [hest]; norm_num [c1fp]
    · norm_num [market_cap_of, c1rec, c1fp]
    · rw [hdp, abs_neg_ofNonneg 90 (by norm_num)]; norm_num [c1fp]
    · rw [hdp, abs_neg_ofNonneg 90 (by norm_num)]; norm_num [c1fp]
  rw [filter_singleton_accept c1fp c1rec hskip hcond (by norm_num [c1fp])]
  simp only [List.map_cons, List.map_nil, project]
  rw [hdp, hest, abs_neg_ofNonneg 90 (by norm_num)]
  rw [round2_of_mul_intCast (-90 : ℚ) (-9000) (by norm_num),
    round2_of_mul_intCast (90 : ℚ) 9000 (by norm_num)]
  norm_num

/-- Claim C2: over any collection of fetched records that all carry an
identifier (the provider marks the identifier as required), the
deduplication of get_all_cryptos keeps exactly the first occurrence in
page order of each identifier and discards later duplicates. -/
theorem C2_dedup_keeps_first_occurrence (l : List RawSnapshot)
    (h : ∀ r ∈ l, (r.id).isSome) :
    dedup_by_id l = Except.ok (specFirstOccurrence l) := by
  rw [dedup_by_id, dedupGo_eq_spec l [] [] h]
  have hid : (specFirstOccurrence l).filter (notSeen []) = specFirstOccurrence l :=
    List.filter_eq_self.mpr (fun a _ => notSeen_nil a)
  rw [hid]
  simp

/-- Witness for C2: pages with identifiers a, b then b, c deduplicate to
a, b, c in first-occurrence order, keeping the first record carrying
identifier b. -/
theorem C2_dedup_example_witness :
    (∀ r ∈ [r_a, r_b, r_b2, r_c], (r.id).isSome) ∧
    get_all_cryptos [[r_a, r_b], [r_b2, r_c]] = Except.ok [r_a, r_b, r_c] := by
  refine ⟨by decide, ?_⟩
  have h := C2_dedup_keeps_first_occurrence [r_a, r_b, r_b2, r_c] (by decide)
  have hs : specFirstOccurrence [r_a, r_b, r_b2, r_c] = [r_a, r_b, r_c] := by decide
  rw [hs] at h
  exact h

/-- Counterexample to claim C3: a record lacking the identifier key does
not get silently excluded with the rest returned; the KeyError raised by
the id subscript aborts the whole deduplication, so the fetch fails
instead of returning the remaining record. -/
theorem C3_missing_id_counterexample :
    dedup_by_id [c3noid, c3a] = Except.error () ∧
    dedup_by_id [c3noid, c3a] ≠ Except.ok [c3a] := by
  refine ⟨rfl, ?_⟩
  intro hcontra
  rw [show dedup_by_id [c3noid, c3a] = Except.error () from rfl] at hcontra
  exact Except.noConfusion hcontra

/-- Claim C3 as amended: whenever any fetched record lacks the identifier
key, the deduplication loop raises an uncaught lookup error and the whole
fetch aborts; no deduplicated list is returned. -/
theorem C3_missing_id_aborts_fetch (l₁ l₂ : List RawSnapshot) (r : RawSnapshot)
    (h : r.id = none) : dedup_by_id (l₁ ++ r :: l₂) = Except.error () := by
  have hgen : ∀ (l : List RawSnapshot) (seen : List String) (acc : List RawSnapshot),
      dedupGo seen acc (l ++ r :: l₂) = Except.error () := by
    intro l
    induction l with
    | nil =>
      intro seen acc
      simp [dedupGo, h]
    | cons c l ih =>
      intro seen acc
      cases hid : c.id with
      | none => simp [dedupGo, hid]
      | some i =>
        by_cases hi : i ∈ seen
        · simpa [dedupGo, hid, hi] using ih seen acc
        · simpa [dedupGo, hid, hi] using ih (i :: seen) (c :: acc)
  exact hgen l₁ [] []

/-- Witness for the amended C3 at a concrete input: a three-record batch
whose middle record has no identifier makes the fetch abort. -/
theorem C3_missing_id_witness :
    c3noid.id = none ∧ dedup_by_id [c3a, c3noid, c3b] = Except.error () :=
  ⟨rfl, C3_missing_id_aborts_fetch [c3a] [c3b] c3noid rfl⟩

lemma c4_process : processRecord c4fp (Record.ok c4rec) = some c4entry := by
  have hskip : ¬ price_skip c4rec := by
    norm_num [price_skip, current_price_of, ath_of, c4rec]
  have hdp : drawdown_percentage_of c4rec = -70 := by
    norm_num [drawdown_percentage_of, calculate_deviation, current_price_of, ath_of, c4rec]
  have hpd : price_deviation_of c4rec = -70 := by
    norm_num [price_deviation_of, calculate_deviation, current_price_of, ath_of, c4rec]
  have hest : estimated_ath_market_cap_of c4rec = 1000 / 3 := by
    norm_num [estimated_ath_market_cap_of, current_price_of, ath_of, market_cap_of, c4rec]
  have hr1 : round2 (-70 : ℚ) = -70 := by
    rw [round2_of_mul_intCast (-70 : ℚ) (-7000) (by norm_num)]
    norm_num
  have hr2 : round2 (70 : ℚ) = 70 := by
    rw [round2_of_mul_intCast (70 : ℚ) 7000 (by norm_num)]
    norm_num
  have hcond : conditions_met c4fp c4rec := by
    refine ⟨?_, ?_, ?_, ?_⟩
    · rw [hest]; norm_num [c4fp]
    · norm_num [market_cap_of, c4rec, c4fp]
    · rw [hdp, abs_neg_ofNonneg 70 (by norm_num)]; norm_num [c4fp]
    · rw [hdp, abs_neg_ofNonneg 70 (by norm_num)]; norm_num [c4fp]
  rw [processRecord_accept c4fp c4rec hskip hcond]
  congr 1
  unfold project
  rw [hdp, abs_neg_ofNonneg 70 (by norm_num), hpd, hest, hr1, hr2]
  simp [c4rec, c4entry, current_price_of, ath_of, market_cap_of]
  with_unfolding_all decide

/-- Counterexample to claim C4: the record c4rec is accepted, yet its
entry stores the estimated peak capitalisation 1000 / 3 unrounded (that
value is not equal to its two-decimal rounding), and its missing text
keys id, image and last_updated default to the empty string rather than
N/A, while the missing numeric market_cap_rank defaults to the string
N/A rather than 0. -/
theorem C4_projection_counterexample :
    (filter_cryptocurrencies [Record.ok c4rec] c4fp).map
      (fun e => (e.estimated_ath_market_cap, e.id, e.image, e.last_updated, e.rank)) =
      [((1000 : ℚ) / 3, "", "", "", PyVal.str "N/A")] ∧
    round2 ((1000 : ℚ) / 3) ≠ (1000 : ℚ) / 3 ∧
    ("" : String) ≠ "N/A" := by
  have hr3 : round2 ((1000 : ℚ) / 3) = 33333 / 100 := by
    rw [round2, show (1000 : ℚ) / 3 * 100 = 100000 / 3 from by norm_num,
      roundHalfEven_eq_down (100000 / 3) 33333 (by norm_num) (by norm_num) (by norm_num)]
    norm_num
  refine ⟨?_, ?_, by decide⟩
  · rw [filter_singleton_of_process c4fp c4rec c4entry c4_process (by norm_num [c4fp])]
    simp [c4entry]
  · rw [hr3]
    norm_num

/-- Claim C4 as amended: for every accepted record, the projected entry
rounds the drawdown percentage, the drawdown magnitude and the price
deviation to two decimal places, stores the estimated peak
capitalisation and all raw fields unrounded, upper-cases the symbol, and
defaults missing fields as the code does: N/A for missing name, symbol,
ath date and market-cap rank (the rank sentinel is the string N/A even
though the field is numeric), the empty string for missing id, image and
last-updated, and 0 for the missing 24h change fields. -/
theorem C4_projection_fields (fp : FilterParams) (c : RawSnapshot) (e : CryptoInfo)
    (h : processRecord fp (Record.ok c) = some e) :
    e.name = c.name.getD "N/A" ∧
    e.symbol = (c.symbol.getD "N/A").toUpper ∧
    e.current_price = c.current_price.getD 0 ∧
    e.ath_price = c.ath.getD 0 ∧
    e.current_market_cap = c.market_cap.getD 0 ∧
    e.ath_date = c.ath_date.getD "N/A" ∧
    e.estimated_ath_market_cap = estimated_ath_market_cap_of c ∧
    e.drawdown_percent = round2 (drawdown_percentage_of c) ∧
    e.drawdown_positive = round2 |drawdown_percentage_of c| ∧
    e.price_deviation = round2 (price_deviation_of c) ∧
    e.rank = (match c.market_cap_rank with
              | some n => PyVal.num n
              | none => PyVal.str "N/A") ∧
    e.id = c.id.getD "" ∧
    e.price_change_24h = c.price_change_24h.getD 0 ∧
    e.price_change_percentage_24h = c.price_change_percentage_24h.getD 0 ∧
    e.image = c.image.getD "" ∧
    e.last_updated = c.last_updated.getD "" := by
  have he : e = project c := by
    by_cases hs : price_skip c
    · rw [processRecord_skip fp c hs] at h
      exact absurd h (by simp)
    · by_cases hc : conditions_met fp c
      · rw [processRecord_accept fp c hs hc] at h
        exact (Option.some.inj h).symm
      · rw [processRecord_reject fp c hc] at h
        exact absurd h (by simp)
  subst he
  exact ⟨rfl, rfl, rfl, rfl, rfl, rfl, rfl, rfl, rfl, rfl, rfl, rfl, rfl, rfl, rfl, rfl⟩

/-- Witness for the amended C4 at the concrete accepted record c4rec. -/
theorem C4_projection_witness :
    processRecord c4fp (Record.ok c4rec) = some c4entry ∧
    (c4entry.name = c4rec.name.getD "N/A" ∧
     c4entry.symbol = (c4rec.symbol.getD "N/A").toUpper ∧
     c4entry.current_price = c4rec.current_price.getD 0 ∧
     c4entry.ath_price = c4rec.ath.getD 0 ∧
     c4entry.current_market_cap = c4rec.market_cap.getD 0 ∧
     c4entry.ath_date = c4rec.ath_date.getD "N/A" ∧
     c4entry.estimated_ath_market_cap = estimated_ath_market_cap_of c4rec ∧
     c4entry.drawdown_percent = round2 (drawdown_percentage_of c4rec) ∧
     c4entry.drawdown_positive = round2 |drawdown_percentage_of c4rec| ∧
     c4entry.price_deviation = round2 (price_deviation_of c4rec) ∧
     c4entry.rank = (match c4rec.market_cap_rank with
                     | some n => PyVal.num n
                     | none => PyVal.str "N/A") ∧
     c4entry.id = c4rec.id.getD "" ∧
     c4entry.price_change_24h = c4rec.price_change_24h.getD 0 ∧
     c4entry.price_change_percentage_24h = c4rec.price_change_percentage_24h.getD 0 ∧
     c4entry.image = c4rec.image.getD "" ∧
     c4entry.last_updated = c4rec.last_updated.getD "") :=
  ⟨c4_process, C4_projection_fields c4fp c4rec c4entry c4_process⟩

lemma c5a_process : processRecord c5fp (Record.ok c5a) = some (project c5a) := by
  apply processRecord_accept_eval c5fp c5a 50
  · norm_num [price_skip, current_price_of, ath_of, c5a]
  · norm_num [drawdown_percentage_of, calculate_deviation, current_price_of, ath_of, c5a]
  · norm_num
  · norm_num [estimated_ath_market_cap_of, current_price_of, ath_of, market_cap_of,
      c5a, c5fp]
  · norm_num [market_cap_of, c5a, c5fp]
  · norm_num [c5fp]
  · norm_num [c5fp]

lemma c5b_process : processRecord c5fp (Record.ok c5b) = some (project c5b) := by
  apply processRecord_accept_eval c5fp c5b 75
  · norm_num [price_skip, current_price_of, ath_of, c5b]
  · norm_num [drawdown_percentage_of, calculate_deviation, current_price_of, ath_of, c5b]
  · norm_num
  · norm_num [estimated_ath_market_cap_of, current_price_of, ath_of, market_cap_of,
      c5b, c5fp]
  · norm_num [market_cap_of, c5b, c5fp]
  · norm_num [c5fp]
  · norm_num [c5fp]

/-- Counterexample to claim C5: with the (pydantic-legal) negative
max_results -1 the Python slice drops one entry from the end instead of
truncating, so a two-record batch of accepted records yields one result,
whose count is not at most max_results. -/
theorem C5_negative_max_results_counterexample :
    (filter_cryptocurrencies [Record.ok c5a, Record.ok c5b] c5fp).length = 1 ∧
    ¬ (((filter_cryptocurrencies [Record.ok c5a, Record.ok c5b] c5fp).length : ℤ) ≤
        c5fp.max_results) := by
  have hflt : filter_cryptocurrencies [Record.ok c5a, Record.ok c5b] c5fp =
      [project c5a] := by
    unfold filter_cryptocurrencies acceptedEntries pySlice
    rw [List.filterMap_cons, c5a_process, List.filterMap_cons, c5b_process,
      List.filterMap_nil, if_neg (by norm_num [c5fp])]
    rfl
  rw [hflt]
  refine ⟨rfl, ?_⟩
  norm_num [c5fp]

/-- Claim C5 as amended: for every input and every criteria whose
max_results is nonnegative, the result length is at most max_results,
the result is exactly the accepted list truncated as the final step, and
max_results 0 yields the empty list. -/
theorem C5_truncation (xs : List Record) (fp : FilterParams) (h : 0 ≤ fp.max_results) :
    ((filter_cryptocurrencies xs fp).length : ℤ) ≤ fp.max_results ∧
    filter_cryptocurrencies xs fp = (acceptedEntries fp xs).take fp.max_results.toNat ∧
    (fp.max_results = 0 → filter_cryptocurrencies xs fp = []) := by
  have heq : filter_cryptocurrencies xs fp =
      (acceptedEntries fp xs).take fp.max_results.toNat := by
    unfold filter_cryptocurrencies pySlice
    rw [if_pos h]
  refine ⟨?_, heq, ?_⟩
  · rw [heq]
    have h1 : ((acceptedEntries fp xs).take fp.max_results.toNat).length ≤
        fp.max_results.toNat := by
      rw [List.length_take]
      exact min_le_left _ _
    omega
  · intro h0
    rw [heq, h0]
    simp

/-- Witness for the amended C5: the two-record batch under the same
criteria with max_results 1 returns exactly one entry. -/
theorem C5_truncation_witness :
    (0 : ℤ) ≤ c5fpw.max_results ∧
    (((filter_cryptocurrencies [Record.ok c5a, Record.ok c5b] c5fpw).length : ℤ) ≤
        c5fpw.max_results ∧
     filter_cryptocurrencies [Record.ok c5a, Record.ok c5b] c5fpw =
       (acceptedEntries c5fpw [Record.ok c5a, Record.ok c5b]).take c5fpw.max_results.toNat ∧
     (c5fpw.max_results = 0 →
       filter_cryptocurrencies [Record.ok c5a, Record.ok c5b] c5fpw = [])) :=
  ⟨by norm_num [c5fpw], C5_truncation [Record.ok c5a, Record.ok c5b] c5fpw
    (by norm_num [c5fpw])⟩

/-- Claim C6: for a fixed input, raising min_drawdown or lowering
max_drawdown while keeping every other criterion equal never increases
the number of results. -/
theorem C6_drawdown_monotonicity (xs : List Record) (fp₁ fp₂ : FilterParams)
    (h₁ : fp₁.min_ath_market_cap = fp₂.min_ath_market_cap)
    (h₂ : fp₁.min_current_market_cap = fp₂.min_current_market_cap)
    (h₃ : fp₁.max_results = fp₂.max_results)
    (h₄ : fp₂.min_drawdown ≤ fp₁.min_drawdown)
    (h₅ : fp₁.max_drawdown ≤ fp₂.max_drawdown) :
    (filter_cryptocurrencies xs fp₁).length ≤ (filter_cryptocurrencies xs fp₂).length := by
  have hsub : List.Sublist (acceptedEntries fp₁ xs) (acceptedEntries fp₂ xs) :=
    filterMap_sublist _ _ (fun r e he => processRecord_mono fp₁ fp₂ h₁ h₂ h₄ h₅ r e he) xs
  unfold filter_cryptocurrencies
  rw [h₃]
  exact pySlice_length_mono fp₂.max_results _ _ hsub.length_le

/-- Witness for C6: tightening the drawdown range from 0 to 100 down to
60 to 80 on a one-record input does not increase the result count. -/
theorem C6_monotonicity_witness :
    (c6tight.min_ath_market_cap = c6loose.min_ath_market_cap ∧
     c6tight.min_current_market_cap = c6loose.min_current_market_cap ∧
     c6tight.max_results = c6loose.max_results ∧
     c6loose.min_drawdown ≤ c6tight.min_drawdown ∧
     c6tight.max_drawdown ≤ c6loose.max_drawdown) ∧
    (filter_cryptocurrencies [Record.ok c6rec] c6tight).length ≤
      (filter_cryptocurrencies [Record.ok c6rec] c6loose).length :=
  ⟨⟨rfl, rfl, rfl, by norm_num [c6loose, c6tight], by norm_num [c6loose, c6tight]⟩,
   C6_drawdown_monotonicity [Record.ok c6rec] c6tight c6loose rfl rfl rfl
     (by norm_num [c6loose, c6tight]) (by norm_num [c6loose, c6tight])⟩

/-- Claim C7: when the caller hands in an inverted drawdown range
(minimum strictly above maximum), the pipeline does not reject the
criteria but simply accepts nothing and returns the empty list. -/
theorem C7_inverted_range_empty (xs : List Record) (fp : FilterParams)
    (h : fp.max_drawdown < fp.min_drawdown) :
    filter_cryptocurrencies xs fp = [] := by
  unfold filter_cryptocurrencies
  rw [acceptedEntries_nil fp xs (fun r _ => processRecord_none_of_inverted fp h r),
    pySlice_nil]

/-- Witness for C7: the inverted range 90 to 50 returns the empty list on
a record that would pass sensible criteria. -/
theorem C7_inverted_range_witness :
    c7fp.max_drawdown < c7fp.min_drawdown ∧
    filter_cryptocurrencies [Record.ok c7rec] c7fp = [] :=
  ⟨by norm_num [c7fp],
   C7_inverted_range_empty [Record.ok c7rec] c7fp (by norm_num [c7fp])⟩

/-- Claim C8: an element of the batch whose processing raises one of the
caught exceptions (or is falsy) is skipped by the per-record
try/except/continue, so the filter result is the same as if that single
element were removed; a malformed record never aborts the batch. -/
theorem C8_malformed_record_skipped (xs ys : List Record) (fp : FilterParams) :
    filter_cryptocurrencies (xs ++ Record.malformed :: ys) fp =
      filter_cryptocurrencies (xs ++ ys) fp := by
  unfold filter_cryptocurrencies
  rw [acceptedEntries_middle_none fp xs ys Record.malformed rfl]

/-- Claim C9: a record whose current price or all-time high is missing or
nonpositive is excluded: its processing yields nothing and the filter
output over any batch containing it equals the output with it removed.
Exclusion is a pure function of the input, hence identical on re-runs. -/
theorem C9_nonpositive_price_excluded (fp : FilterParams) (c : RawSnapshot)
    (xs ys : List Record)
    (h : c.current_price = none ∨ c.ath = none ∨
         c.current_price.getD 0 ≤ 0 ∨ c.ath.getD 0 ≤ 0) :
    processRecord fp (Record.ok c) = none ∧
    filter_cryptocurrencies (xs ++ Record.ok c :: ys) fp =
      filter_cryptocurrencies (xs ++ ys) fp := by
  have hs : price_skip c := by
    rcases h with h | h | h | h
    · exact Or.inl (by simp [current_price_of, h])
    · exact Or.inr (Or.inl (by simp [ath_of, h]))
    · exact Or.inr (Or.inr (Or.inl h))
    · exact Or.inr (Or.inr (Or.inr h))
  have hnone := processRecord_skip fp c hs
  refine ⟨hnone, ?_⟩
  unfold filter_cryptocurrencies
  rw [acceptedEntries_middle_none fp xs ys (Record.ok c) hnone]

/-- Witness for C9: the section 8 example record with current price 0 is
excluded regardless of its other fields. -/
theorem C9_nonpositive_price_witness :
    (c9rec.current_price = none ∨ c9rec.ath = none ∨
     c9rec.current_price.getD 0 ≤ 0 ∨ c9rec.ath.getD 0 ≤ 0) ∧
    (processRecord c9fp (Record.ok c9rec) = none ∧
     filter_cryptocurrencies ([] ++ Record.ok c9rec :: []) c9fp =
       filter_cryptocurrencies ([] ++ []) c9fp) :=
  ⟨Or.inr (Or.inr (Or.inl (by simp [c9rec]))),
   C9_nonpositive_price_excluded c9fp c9rec [] []
     (Or.inr (Or.inr (Or.inl (by simp [c9rec]))))⟩

/-- Claim C10: the pydantic defaults put min_drawdown at 90 and
max_drawdown at 50, an inverted range, so filtering any input with an
all-defaults FilterParams returns the empty list. -/
theorem C10_default_params_empty :
    defaultParams.min_drawdown = 90 ∧ defaultParams.max_drawdown = 50 ∧
    ∀ xs : List Record, filter_cryptocurrencies xs defaultParams = [] :=
  ⟨rfl, rfl, fun xs => by
    unfold filter_cryptocurrencies
    rw [acceptedEntries_nil defaultParams xs
        (fun r _ => processRecord_none_of_inverted defaultParams
          (by norm_num [defaultParams]) r),
      pySlice_nil]⟩

end CryptoScan
